import Mathlib

/-!
# A verification development for the gorunpy worker bridge

Shallow embedding of `python/gorunpy/__init__.py` (type-descriptor algebra,
validation/coercion engine, registry, dispatch protocol, introspection
exporter, `main` entry point) and of the wire-string grammar of the spec.

JSON values are modelled with `Int` for JSON integers and `Rat` for JSON
floats (the Python `json` module keeps the int/float distinction; only the
int/float distinction and exact integer widening matter to validation, so
`Rat` is an adequate stand-in for IEEE doubles here).
-/

/-- A single-quote character, used inside Python-style error messages. -/
def sglQuote : String := String.mk [Char.ofNat 39]

/-- A double-quote character. -/
def dblQuote : String := String.mk [Char.ofNat 34]

/-- Join strings with `", "`, as Python `", ".join(...)`. -/
def joinComma (xs : List String) : String := String.intercalate ", " xs

/-- JSON values as produced by `json.loads` / consumed by `json.dumps`.
Object keys are strings by construction (as in parsed JSON). -/
inductive JVal where
  | null
  | bool (b : Bool)
  | int (n : Int)
  | float (q : Rat)
  | str (s : String)
  | arr (xs : List JVal)
  | obj (fields : List (String × JVal))

/-- Python `type(value).__name__` for a JSON value. -/
def jvalTypeName : JVal → String
  | .null => "NoneType"
  | .bool _ => "bool"
  | .int _ => "int"
  | .float _ => "float"
  | .str _ => "str"
  | .arr _ => "list"
  | .obj _ => "dict"

/-- Is the value Python `None`? (`value is None`). -/
def JVal.isNull : JVal → Bool
  | .null => true
  | _ => false

/-- The type-hint algebra reachable through `gorunpy`'s validation code:
primitives, `NoneType`, `Any`, `List` (with optional item type), `Dict`
(with optional key/value types), and `Union` over a member list.
`Optional[T]` is Python's `Union[T, None]`, i.e. `union [T, noneType]`. -/
inductive Ty where
  | int
  | float
  | str
  | bool
  | noneType
  | any
  | list (item : Option Ty)
  | dict (args : Option (Ty × Ty))
  | union (ms : List Ty)

/-- `arg is type(None)` on a type hint. -/
def Ty.isNoneType : Ty → Bool
  | .noneType => true
  | _ => false

theorem Ty.isNoneType_iff (t : Ty) : t.isNoneType = true ↔ t = Ty.noneType := by
  cases t <;> simp [Ty.isNoneType]

/-- Python `repr` of a string (as used when an f-string renders a list of
strings): single quotes by default, double quotes when the string contains a
single quote (and no double quote), otherwise escaped single quotes. -/
def pyStrRepr (s : String) : String :=
  if s.contains (Char.ofNat 39) then
    if s.contains (Char.ofNat 34) then
      sglQuote ++
        String.join (s.toList.map fun c =>
          if c = Char.ofNat 39 then "\\" ++ sglQuote else String.mk [c]) ++
        sglQuote
    else dblQuote ++ s ++ dblQuote
  else sglQuote ++ s ++ sglQuote

/-- Python `repr`/f-string rendering of a list of strings. -/
def pyListRepr (xs : List String) : String :=
  "[" ++ joinComma (xs.map pyStrRepr) ++ "]"

/-- `"<class 'X'>"`, Python `str()` of a plain class. -/
def pyClassRepr (name : String) : String :=
  "<class " ++ sglQuote ++ name ++ sglQuote ++ ">"

mutual
/-- Model of CPython `str(type_hint)` as interpolated into the engine's error
messages: classes render as `<class 'X'>`, `typing` objects with a `typing.`
prefix; a two-member `Union` with `NoneType` renders as `typing.Optional`. -/
def tyRepr : Ty → String
  | .int => pyClassRepr "int"
  | .float => pyClassRepr "float"
  | .str => pyClassRepr "str"
  | .bool => pyClassRepr "bool"
  | .noneType => pyClassRepr "NoneType"
  | .any => "typing.Any"
  | .list Option.none => "typing.List"
  | .list (Option.some t) => "typing.List[" ++ tyArgRepr t ++ "]"
  | .dict Option.none => "typing.Dict"
  | .dict (Option.some (k, v)) =>
      "typing.Dict[" ++ tyArgRepr k ++ ", " ++ tyArgRepr v ++ "]"
  | .union [Ty.noneType, b] => "typing.Optional[" ++ tyArgRepr b ++ "]"
  | .union [a, Ty.noneType] => "typing.Optional[" ++ tyArgRepr a ++ "]"
  | .union ms => "typing.Union[" ++ joinComma (tyArgReprList ms) ++ "]"

/-- Nested-argument rendering inside a `typing` repr: plain classes render by
bare name, `typing` objects by their full repr. -/
def tyArgRepr : Ty → String
  | .int => "int"
  | .float => "float"
  | .str => "str"
  | .bool => "bool"
  | .noneType => "NoneType"
  | t => tyRepr t

def tyArgReprList : List Ty → List String
  | [] => []
  | t :: ts => tyArgRepr t :: tyArgReprList ts
end

/-- `[str(arg) for arg in args if arg is not type(None)]`, the `type_names`
list of the union-failure message. -/
def tyReprNonNoneList (ms : List Ty) : List String :=
  (ms.filter (fun t => !t.isNoneType)).map tyRepr

/-- Structured content of a `GoRunPyError`: its `kind` string, message and
optional `field`, as serialized by `GoRunPyError.to_dict`. -/
structure GRPError where
  kind : String
  message : String
  field : Option String
deriving DecidableEq

/-- `TypeError_(message, field=field_name)`. -/
def typeError (msg : String) (field : String) : GRPError :=
  ⟨"TypeError", msg, Option.some field⟩

/-- `ValidationError(message, field=...)`. -/
def validationError (msg : String) (field : Option String) : GRPError :=
  ⟨"ValidationError", msg, field⟩

/-- `FunctionNotFoundError(function_name)`. -/
def functionNotFoundError (functionName : String) : GRPError :=
  ⟨"FunctionNotFoundError",
    "function " ++ sglQuote ++ functionName ++ sglQuote ++ " not found",
    Option.none⟩

mutual
/-- `_validate_value(value, type_hint, field_name)`: validate and coerce a
value against a type hint.  Mirrors the source's check order: the `None`
check first, then `Any`, `Union`, `List`, `Dict`, the primitives, and the
final pass-through (which a non-null value against `NoneType` reaches). -/
def validateValue (value : JVal) (ty : Ty) (fieldName : String) :
    Except GRPError JVal :=
  if value.isNull then
    match ty with
    | .noneType => .ok JVal.null
    | .union ms =>
        if ms.any Ty.isNoneType then .ok JVal.null
        else .error (typeError ("expected " ++ tyRepr (Ty.union ms) ++ ", got None") fieldName)
    | .int => .error (typeError ("expected " ++ tyRepr Ty.int ++ ", got None") fieldName)
    | .float => .error (typeError ("expected " ++ tyRepr Ty.float ++ ", got None") fieldName)
    | .str => .error (typeError ("expected " ++ tyRepr Ty.str ++ ", got None") fieldName)
    | .bool => .error (typeError ("expected " ++ tyRepr Ty.bool ++ ", got None") fieldName)
    | .any => .error (typeError ("expected " ++ tyRepr Ty.any ++ ", got None") fieldName)
    | .list item => .error (typeError ("expected " ++ tyRepr (Ty.list item) ++ ", got None") fieldName)
    | .dict dargs => .error (typeError ("expected " ++ tyRepr (Ty.dict dargs) ++ ", got None") fieldName)
  else
    match ty with
    | .any => .ok value
    | .union ms => validateUnion value ms ms fieldName
    | .list item =>
        match value with
        | .arr xs =>
            match item with
            | Option.some itemTy =>
                (validateListItems xs itemTy fieldName 0).map JVal.arr
            | Option.none => .ok value
        | _ => .error (typeError ("expected list, got " ++ jvalTypeName value) fieldName)
    | .dict dargs =>
        match value with
        | .obj fs =>
            match dargs with
            | Option.some (_keyTy, valTy) =>
                (validateDictItems fs valTy fieldName).map JVal.obj
            | Option.none => .ok value
        | _ => .error (typeError ("expected dict, got " ++ jvalTypeName value) fieldName)
    | .int =>
        match value with
        | .bool _ => .error (typeError "expected int, got bool" fieldName)
        | .int n => .ok (.int n)
        | _ => .error (typeError ("expected int, got " ++ jvalTypeName value) fieldName)
    | .float =>
        match value with
        | .bool _ => .error (typeError "expected float, got bool" fieldName)
        | .int n => .ok (.float (n : Rat))
        | .float q => .ok (.float q)
        | _ => .error (typeError ("expected float, got " ++ jvalTypeName value) fieldName)
    | .str =>
        match value with
        | .str s => .ok (.str s)
        | _ => .error (typeError ("expected str, got " ++ jvalTypeName value) fieldName)
    | .bool =>
        match value with
        | .bool b => .ok (.bool b)
        | _ => .error (typeError ("expected bool, got " ++ jvalTypeName value) fieldName)
    | .noneType => .ok value
termination_by (sizeOf ty, 0)

/-- The union member loop of `_validate_value` for a non-null value: skip
`NoneType` members, return the first member that validates, and after
exhausting the members fail with the aggregate `type_names` message (built
from the full declared member list `allMs`). -/
def validateUnion (value : JVal) (ms : List Ty) (allMs : List Ty)
    (fieldName : String) : Except GRPError JVal :=
  match ms with
  | [] =>
      .error (typeError
        ("expected one of " ++ pyListRepr (tyReprNonNoneList allMs) ++
          ", got " ++ jvalTypeName value) fieldName)
  | m :: rest =>
      if m.isNoneType then validateUnion value rest allMs fieldName
      else
        match validateValue value m fieldName with
        | .ok w => .ok w
        | .error _ => validateUnion value rest allMs fieldName
termination_by (sizeOf ms, 0)

/-- The `List[T]` element loop: validate each element against the item type
with path suffix `[i]`; the first failure propagates. -/
def validateListItems (xs : List JVal) (itemTy : Ty) (fieldName : String)
    (i : Nat) : Except GRPError (List JVal) :=
  match xs with
  | [] => .ok []
  | x :: rest =>
      match validateValue x itemTy (fieldName ++ "[" ++ toString i ++ "]") with
      | .error e => .error e
      | .ok w =>
          match validateListItems rest itemTy fieldName (i + 1) with
          | .error e => .error e
          | .ok ws => .ok (w :: ws)
termination_by (sizeOf itemTy, xs.length + 1)

/-- The `Dict[str, T]` value loop: validate each value against the value type
with path suffix `.key`.  `JVal.obj` keys are strings by construction, so the
source's non-string-key branch is unrepresentable here. -/
def validateDictItems (fs : List (String × JVal)) (valTy : Ty)
    (fieldName : String) : Except GRPError (List (String × JVal)) :=
  match fs with
  | [] => .ok []
  | (k, v) :: rest =>
      match validateValue v valTy (fieldName ++ "." ++ k) with
      | .error e => .error e
      | .ok w =>
          match validateDictItems rest valTy fieldName with
          | .error e => .error e
          | .ok ws => .ok ((k, w) :: ws)
termination_by (sizeOf valTy, fs.length + 1)
end

/-- `_validate_return_value(value, type_hint)`: skip validation when the
declared return hint is `None`/`NoneType`, else run the engine with path
`"return"`. -/
def validateReturnValue (value : JVal) (ty : Ty) : Except GRPError JVal :=
  match ty with
  | .noneType => .ok value
  | _ => validateValue value ty "return"

/-- Python-dict lookup `d.get(key)` on an association list in insertion
order (keys unique when built through dict assignment). -/
def dictGet {α : Type} : List (String × α) → String → Option α
  | [], _ => Option.none
  | (k, v) :: rest, key => if k = key then Option.some v else dictGet rest key

/-- Python-dict assignment `d[key] = val`: update in place when the key is
present (keeping its position), else append. -/
def dictSet {α : Type} : List (String × α) → String → α → List (String × α)
  | [], key, val => [(key, val)]
  | (k, v) :: rest, key, val =>
      if k = key then (key, val) :: rest else (k, v) :: dictSet rest key val

/-- A Python callable as invoked by dispatch: takes the validated keyword
arguments and either returns a JSON value, raises a `GoRunPyError`
(`.error (.grp e)`) or raises some other exception (`.error (.exc s)`, the
string standing for the exception's rendered description and traceback). -/
inductive PyErr where
  | grp (e : GRPError)
  | exc (description : String)

/-- `FunctionInfo`: metadata about an exported function. -/
structure FunctionInfo where
  name : String
  func : List (String × JVal) → Except PyErr JVal
  type_hints : List (String × Ty)
  return_type : Ty

/-- `Registry`: the wrapped `_functions` dict, name → `FunctionInfo`. -/
structure Registry where
  functions : List (String × FunctionInfo)

/-- `Registry.register(name, func, type_hints, return_type)`: plain dict
assignment, no duplicate check. -/
def Registry.register (reg : Registry) (name : String)
    (func : List (String × JVal) → Except PyErr JVal)
    (type_hints : List (String × Ty)) (return_type : Ty) : Registry :=
  ⟨dictSet reg.functions name ⟨name, func, type_hints, return_type⟩⟩

/-- `Registry.get(name)`. -/
def Registry.get (reg : Registry) (name : String) : Option FunctionInfo :=
  dictGet reg.functions name

/-- `Registry.list_functions()`: the key list in insertion order. -/
def Registry.list_functions (reg : Registry) : List String :=
  reg.functions.map Prod.fst

mutual
/-- `_type_to_string(type_hint)`: the wire-string representation of a type
hint, as exposed by introspection.  A `Union` with exactly one non-`None`
member and containing `NoneType` prints as `Optional[...]`. -/
def typeToString : Ty → String
  | .noneType => "None"
  | .any => "Any"
  | .int => "int"
  | .float => "float"
  | .str => "str"
  | .bool => "bool"
  | .list Option.none => "List"
  | .list (Option.some t) => "List[" ++ typeToString t ++ "]"
  | .dict Option.none => "Dict"
  | .dict (Option.some (k, v)) =>
      "Dict[" ++ typeToString k ++ ", " ++ typeToString v ++ "]"
  | .union ms =>
      match nonNoneStrings ms, ms.any Ty.isNoneType with
      | [s], true => "Optional[" ++ s ++ "]"
      | _, _ => "Union[" ++ joinComma (typeToStringList ms) ++ "]"

def typeToStringList : List Ty → List String
  | [] => []
  | t :: ts => typeToString t :: typeToStringList ts

/-- The wire strings of the non-`None` union members (`non_none_args`
rendered by `_type_to_string`). -/
def nonNoneStrings : List Ty → List String
  | [] => []
  | t :: ts =>
      if t.isNoneType then nonNoneStrings ts
      else typeToString t :: nonNoneStrings ts
end

/-- One entry of the `_introspect` output for a registered function. -/
def introspectEntry (info : FunctionInfo) : JVal :=
  .obj [("name", .str info.name),
        ("parameters", .obj (info.type_hints.map fun p => (p.1, .str (typeToString p.2)))),
        ("return_type", .str (typeToString info.return_type))]

/-- The `functions` array of `_introspect`: iterate `list_functions()`, look
each name up, and skip (unreachable) absent entries. -/
def introspectList (reg : Registry) : List String → List JVal
  | [] => []
  | name :: rest =>
      match reg.get name with
      | Option.some info => introspectEntry info :: introspectList reg rest
      | Option.none => introspectList reg rest

/-- `_introspect()`: metadata about all registered functions. -/
def introspectJson (reg : Registry) : JVal :=
  .obj [("functions", .arr (introspectList reg reg.list_functions))]

/-- The return hint `Dict[str, Any]` that `_register_introspect` declares. -/
def introspectReturnTy : Ty := Ty.dict (Option.some (Ty.str, Ty.any))

/-- `_register_introspect()` as performed at the start of `main()`: register
`__introspect__` with no parameters and return hint `Dict[str, Any]`.  The
callable reads the registry as it stands after this registration (in the
source it reads the global registry at call time, which no longer changes);
the snapshot used to build its output carries a placeholder callable, which
is sound because introspection never reads `func` fields. -/
def introspectSnapshot (reg : Registry) : Registry :=
  ⟨dictSet reg.functions "__introspect__"
    ⟨"__introspect__", fun _ => .error (.exc "placeholder"), [], introspectReturnTy⟩⟩

def seedRegistry (reg : Registry) : Registry :=
  reg.register "__introspect__" (fun _ => .ok (introspectJson (introspectSnapshot reg)))
    [] introspectReturnTy

/-- Is a parameter hint treated as nullable by dispatch's missing-argument
resolution: `get_origin(t) is Union and type(None) in get_args(t)`. -/
def isNullableHint : Ty → Bool
  | .union ms => ms.any Ty.isNoneType
  | _ => false

/-- The `validated_args` loop of `_dispatch`: for each declared parameter in
order, bind `None` when absent and nullable, fail with
`ValidationError("missing required argument '<name>'", field=<name>)` when
absent and not nullable, else run the validation engine on the provided
value. -/
def bindArgs : List (String × Ty) → List (String × JVal) →
    Except GRPError (List (String × JVal))
  | [], _ => .ok []
  | (pname, pty) :: rest, args =>
      match dictGet args pname with
      | Option.none =>
          if isNullableHint pty then
            match bindArgs rest args with
            | .error e => .error e
            | .ok vs => .ok ((pname, JVal.null) :: vs)
          else
            .error (validationError
              ("missing required argument " ++ sglQuote ++ pname ++ sglQuote)
              (Option.some pname))
      | Option.some v =>
          match validateValue v pty pname with
          | .error e => .error e
          | .ok w =>
              match bindArgs rest args with
              | .error e => .error e
              | .ok vs => .ok ((pname, w) :: vs)

/-- Sort strings lexicographically, as Python `sorted` on `str`. -/
def sortStrings (xs : List String) : List String :=
  xs.mergeSort (fun a b => decide (a ≤ b))

/-- `_dispatch(request)` on a parsed JSON-object request (the field list):
resolve the function, bind and validate arguments, reject unexpected
argument keys (after binding, as in the source), invoke the callable, and
validate its result. -/
def dispatchFields (reg : Registry) (fields : List (String × JVal)) :
    Except PyErr JVal :=
  match dictGet fields "function" with
  | Option.none => .error (.grp (validationError ("missing " ++ sglQuote ++ "function" ++ sglQuote ++ " field in request") Option.none))
  | Option.some fv =>
      match fv with
      | .str functionName =>
          match reg.get functionName with
          | Option.none => .error (.grp (functionNotFoundError functionName))
          | Option.some info =>
              match (dictGet fields "args").getD (JVal.obj []) with
              | .obj argFields =>
                  match bindArgs info.type_hints argFields with
                  | .error e => .error (.grp e)
                  | .ok validatedArgs =>
                      let expected := info.type_hints.map Prod.fst
                      let unexpected :=
                        ((argFields.map Prod.fst).filter
                          (fun k => !expected.contains k)).dedup
                      if unexpected.isEmpty then
                        match info.func validatedArgs with
                        | .error e => .error e
                        | .ok result =>
                            match validateReturnValue result info.return_type with
                            | .error e => .error (.grp e)
                            | .ok final => .ok final
                      else
                        .error (.grp (validationError
                          ("unexpected argument(s): " ++ joinComma (sortStrings unexpected))
                          Option.none))
              | _ => .error (.grp (validationError (sglQuote ++ "args" ++ sglQuote ++ " must be an object") Option.none))
      | _ => .error (.grp (validationError (sglQuote ++ "function" ++ sglQuote ++ " must be a string") Option.none))

/-- Does Python `"function" in s` hold for a string `s` (substring test)? -/
def containsFunctionSubstring (s : String) : Bool :=
  (s.splitOn "function").length > 1

/-- `_dispatch(request)` on an arbitrary parsed JSON value.  A JSON object
takes the real path; the other shapes mirror what `"function" not in request`
/ `request["function"]` do in Python: lists test membership and then crash on
the string index, strings test substring containment and then crash on the
string index, and scalars crash on the membership test itself. -/
def dispatchVal (reg : Registry) (request : JVal) : Except PyErr JVal :=
  match request with
  | .obj fields => dispatchFields reg fields
  | .arr xs =>
      if xs.any (fun x => match x with | .str s => s = "function" | _ => false) then
        .error (.exc "TypeError: list indices must be integers or slices, not str")
      else
        .error (.grp (validationError ("missing " ++ sglQuote ++ "function" ++ sglQuote ++ " field in request") Option.none))
  | .str s =>
      if containsFunctionSubstring s then
        .error (.exc "TypeError: string indices must be integers")
      else
        .error (.grp (validationError ("missing " ++ sglQuote ++ "function" ++ sglQuote ++ " field in request") Option.none))
  | _ =>
      .error (.exc "TypeError: argument of type is not iterable")

/-- `ExitCode`. -/
inductive ExitCode where
  | success
  | handledError
  | crash

/-- `ExitCode.value`. -/
def ExitCode.value : ExitCode → Nat
  | .success => 0
  | .handledError => 1
  | .crash => 2

/-- The two output channels of the worker process. -/
inductive Channel where
  | stdout
  | stderr
deriving DecidableEq

/-- What one run of `main()` does: the single response object written, the
channel it goes to, and the process exit code. -/
structure MainOut where
  channel : Channel
  response : JVal
  exitCode : Nat

/-- The worker's stdin, after the reads `main()` performs: blank input,
input that fails `json.loads` (with the decoder's message), or a parsed
JSON value. -/
inductive StdinInput where
  | emptyInput
  | badJSON (msg : String)
  | parsed (v : JVal)

/-- `_make_success_response(result)`. -/
def makeSuccessResponse (result : JVal) : JVal :=
  .obj [("ok", .bool true), ("result", .obj [("value", result)])]

/-- `GoRunPyError.to_dict()`. -/
def errorToDict (e : GRPError) : JVal :=
  match e.field with
  | Option.some f =>
      .obj [("kind", .str e.kind), ("message", .str e.message), ("field", .str f)]
  | Option.none => .obj [("kind", .str e.kind), ("message", .str e.message)]

/-- `_make_error_response(error)`. -/
def makeErrorResponse (e : GRPError) : JVal :=
  .obj [("ok", .bool false), ("error", errorToDict e)]

/-- The result of `main()`'s `try` body on one request, before the
`except` handlers: seed the introspection function, then fail on blank or
undecodable input, else dispatch the parsed request. -/
def pipelineResult (reg : Registry) (input : StdinInput) : Except PyErr JVal :=
  let reg' := seedRegistry reg
  match input with
  | .emptyInput => .error (.grp (validationError "empty input" Option.none))
  | .badJSON m => .error (.grp (validationError ("invalid JSON: " ++ m) Option.none))
  | .parsed v => dispatchVal reg' v

/-- `main()`: run the pipeline and convert its outcome through the
`except` handlers into exactly one written response and an exit code —
success to stdout with `ExitCode.SUCCESS`, a caught `GoRunPyError` to
stderr with `HANDLED_ERROR`, any other exception wrapped as a
`RuntimeError`-kind response to stderr with `CRASH`. -/
def runMain (reg : Registry) (input : StdinInput) : MainOut :=
  match pipelineResult reg input with
  | .ok result =>
      ⟨Channel.stdout, makeSuccessResponse result, ExitCode.success.value⟩
  | .error (.grp e) =>
      ⟨Channel.stderr, makeErrorResponse e, ExitCode.handledError.value⟩
  | .error (.exc description) =>
      ⟨Channel.stderr, makeErrorResponse ⟨"RuntimeError", description, Option.none⟩,
        ExitCode.crash.value⟩

/-- Modelled from the spec: `parseWireString` of §4.1 is implemented by the
Go side of the repository, which is not part of the Python sources here;
this recursive-descent reading of the fixed grammar — primitives by name
(`int`, `float`, `str`, `bool`, `None`, `Any`), `List[T]`, `Dict[str, T]`
(key type always string), `Optional[T]` (sugar for `Union[T, NoneType]`) —
consumes one descriptor from the front of the character list and returns
the remainder. -/
def parseWire : List Char → Option (Ty × List Char)
  | 'i' :: 'n' :: 't' :: rest => Option.some (Ty.int, rest)
  | 'f' :: 'l' :: 'o' :: 'a' :: 't' :: rest => Option.some (Ty.float, rest)
  | 's' :: 't' :: 'r' :: rest => Option.some (Ty.str, rest)
  | 'b' :: 'o' :: 'o' :: 'l' :: rest => Option.some (Ty.bool, rest)
  | 'N' :: 'o' :: 'n' :: 'e' :: rest => Option.some (Ty.noneType, rest)
  | 'A' :: 'n' :: 'y' :: rest => Option.some (Ty.any, rest)
  | 'L' :: 'i' :: 's' :: 't' :: '[' :: rest =>
      match parseWire rest with
      | Option.some (t, ']' :: rest') => Option.some (Ty.list (Option.some t), rest')
      | _ => Option.none
  | 'D' :: 'i' :: 'c' :: 't' :: '[' :: 's' :: 't' :: 'r' :: ',' :: ' ' :: rest =>
      match parseWire rest with
      | Option.some (t, ']' :: rest') =>
          Option.some (Ty.dict (Option.some (Ty.str, t)), rest')
      | _ => Option.none
  | 'O' :: 'p' :: 't' :: 'i' :: 'o' :: 'n' :: 'a' :: 'l' :: '[' :: rest =>
      match parseWire rest with
      | Option.some (t, ']' :: rest') =>
          Option.some (Ty.union [t, Ty.noneType], rest')
      | _ => Option.none
  | _ => Option.none

/-- Modelled from the spec: `parseWireString(string) → TypeDescriptor` —
the whole string must be consumed. -/
def parseWireString (s : String) : Option Ty :=
  match parseWire s.toList with
  | Option.some (t, []) => Option.some t
  | _ => Option.none

/-- The descriptors expressible in the wire grammar of §4.1: primitives
(`int`/`float`/`str`/`bool`/`None`/`Any`), `List[T]`, `Dict` with string
keys, and `Optional[T]` (i.e. `Union[T, NoneType]` with a non-`None`
payload). -/
inductive InGrammar : Ty → Prop where
  | int : InGrammar Ty.int
  | float : InGrammar Ty.float
  | str : InGrammar Ty.str
  | bool : InGrammar Ty.bool
  | noneType : InGrammar Ty.noneType
  | any : InGrammar Ty.any
  | list {t : Ty} : InGrammar t → InGrammar (Ty.list (Option.some t))
  | dict {t : Ty} : InGrammar t → InGrammar (Ty.dict (Option.some (Ty.str, t)))
  | opt {t : Ty} : InGrammar t → t ≠ Ty.noneType →
      InGrammar (Ty.union [t, Ty.noneType])

/-! ## Association-list (Python dict) lemmas -/

theorem dictGet_dictSet_self {α : Type} (l : List (String × α)) (k : String) (v : α) :
    dictGet (dictSet l k v) k = Option.some v := by
  induction l with
  | nil => simp [dictSet, dictGet]
  | cons p rest ih =>
      obtain ⟨k', v'⟩ := p
      by_cases h : k' = k
      · subst h; simp [dictSet, dictGet]
      · simp [dictSet, dictGet, h, ih]

theorem dictGet_dictSet_ne {α : Type} (l : List (String × α)) (k k' : String)
    (v : α) (h : k' ≠ k) : dictGet (dictSet l k v) k' = dictGet l k' := by
  induction l with
  | nil => simp [dictSet, dictGet, Ne.symm h]
  | cons p rest ih =>
      obtain ⟨k0, v0⟩ := p
      by_cases h0 : k0 = k
      · subst h0
        simp only [dictSet, if_pos rfl, dictGet]
        rw [if_neg (fun hh => h hh.symm), if_neg (fun hh => h hh.symm)]
      · simp only [dictSet, if_neg h0, dictGet]
        by_cases h1 : k0 = k'
        · simp [h1]
        · simp [h1, ih]

theorem keys_dictSet {α : Type} (l : List (String × α)) (k : String) (v : α) :
    (dictSet l k v).map Prod.fst =
      if (l.map Prod.fst).contains k then l.map Prod.fst
      else l.map Prod.fst ++ [k] := by
  induction l with
  | nil => simp [dictSet]
  | cons p rest ih =>
      obtain ⟨k0, v0⟩ := p
      by_cases h0 : k0 = k
      · subst h0; simp [dictSet]
      · have hne : ((k : String) == k0) = false :=
          beq_eq_false_iff_ne.mpr (fun hh => h0 hh.symm)
        simp only [dictSet, if_neg h0, List.map_cons, List.contains_cons, hne,
          Bool.false_or, ih]
        by_cases h1 : ((rest.map Prod.fst).contains k = true)
        · rw [if_pos h1, if_pos h1]
        · rw [if_neg h1, if_neg h1, List.cons_append]

theorem dictGet_append_other {α : Type} (l : List (String × α)) (k k' : String)
    (v : α) (h : k' ≠ k) : dictGet (l ++ [(k, v)]) k' = dictGet l k' := by
  induction l with
  | nil => simp [dictGet, Ne.symm h]
  | cons p rest ih =>
      obtain ⟨k0, v0⟩ := p
      by_cases h0 : k0 = k' <;> simp [dictGet, h0, ih]

theorem dictGet_append_self {α : Type} (l : List (String × α)) (k : String)
    (v : α) (h : dictGet l k = Option.none) :
    dictGet (l ++ [(k, v)]) k = Option.some v := by
  induction l with
  | nil => simp [dictGet]
  | cons p rest ih =>
      obtain ⟨k0, v0⟩ := p
      by_cases h0 : k0 = k
      · subst h0; simp [dictGet] at h
      · simp [dictGet, h0] at h ⊢; exact ih h

/-! ## C4 — registry registration semantics -/

/-- C4 counterexample: registering an already-present name does not fail —
`register` is total — and it silently replaces the existing entry: after
re-registering `"f"` with return hint `str`, the lookup sees the new hint
(not the original `int`) and the key list is still just `["f"]`. -/
theorem register_duplicate_silently_replaces :
    (((Registry.register (Registry.register ⟨[]⟩ "f" (fun _ => Except.ok JVal.null) [] Ty.int)
        "f" (fun _ => Except.ok JVal.null) [] Ty.str).get "f").map
      FunctionInfo.return_type = Option.some Ty.str) ∧
    (((Registry.register (Registry.register ⟨[]⟩ "f" (fun _ => Except.ok JVal.null) [] Ty.int)
        "f" (fun _ => Except.ok JVal.null) [] Ty.str).get "f").map
      FunctionInfo.return_type ≠ Option.some Ty.int) ∧
    ((Registry.register (Registry.register ⟨[]⟩ "f" (fun _ => Except.ok JVal.null) [] Ty.int)
        "f" (fun _ => Except.ok JVal.null) [] Ty.str).list_functions = ["f"]) := by
  refine ⟨rfl, ?_, rfl⟩
  simp [Registry.register, Registry.get, dictSet, dictGet]

/-- C4 (amended): `register` never fails; it writes the entry for `name`
(replacing an existing one in place), leaves every other name's entry
untouched, and appends the name to the key order only when it was absent —
so names stay unique as dict keys, but re-registration silently overwrites. -/
theorem register_overwrites_existing (reg : Registry) (name : String)
    (f : List (String × JVal) → Except PyErr JVal)
    (hints : List (String × Ty)) (ret : Ty) :
    ((reg.register name f hints ret).get name =
        Option.some ⟨name, f, hints, ret⟩) ∧
    (∀ other, other ≠ name →
        (reg.register name f hints ret).get other = reg.get other) ∧
    ((reg.register name f hints ret).list_functions =
      if reg.list_functions.contains name then reg.list_functions
      else reg.list_functions ++ [name]) := by
  refine ⟨?_, ?_, ?_⟩
  · exact dictGet_dictSet_self reg.functions name _
  · intro other h
    exact dictGet_dictSet_ne reg.functions name other _ h
  · exact keys_dictSet reg.functions name _

/-- Witness for `register_overwrites_existing` at a concrete registry. -/
theorem register_overwrites_existing_witness :
    ((Registry.register ⟨[]⟩ "f" (fun _ => Except.ok JVal.null) [] Ty.int).get "g" =
      (⟨[]⟩ : Registry).get "g") ∧
    ((Registry.register ⟨[]⟩ "f" (fun _ => Except.ok JVal.null) [] Ty.int).get "f" =
      Option.some ⟨"f", fun _ => Except.ok JVal.null, [], Ty.int⟩) :=
  ⟨(register_overwrites_existing ⟨[]⟩ "f" (fun _ => Except.ok JVal.null) [] Ty.int).2.1
      "g" (by decide),
   (register_overwrites_existing ⟨[]⟩ "f" (fun _ => Except.ok JVal.null) [] Ty.int).1⟩

/-! ## C7 — primitive strictness and widening -/

/-- C7: a boolean is never accepted where `int` is declared
(`validate(true, int, p)` is a `TypeError`); `validate(true, bool, p)`
succeeds returning `true`; and an integer validates against `float` and is
widened to the float-typed value (`validate(3, float, p) = 3.0`). -/
theorem primitive_bool_int_float_rules (p : String) :
    validateValue (JVal.bool true) Ty.int p =
      .error (typeError "expected int, got bool" p) ∧
    validateValue (JVal.bool true) Ty.bool p = .ok (JVal.bool true) ∧
    validateValue (JVal.int 3) Ty.float p = .ok (JVal.float 3) := by
  refine ⟨?_, ?_, ?_⟩ <;> simp [validateValue, JVal.isNull]

/-! ## C2 — `None` against a descriptor -/

/-- C2 counterexample: `validate(None, Any, p)` does **not** succeed — the
source's `None` check runs before the `Any` pass-through, so `None` against
`Any` raises `TypeError("expected typing.Any, got None")`. -/
theorem validate_null_any_fails :
    validateValue JVal.null Ty.any "p" =
      .error (typeError "expected typing.Any, got None" "p") := by
  simp [validateValue, JVal.isNull, tyRepr]

/-- C2 (amended): `validate(None, d, p)` succeeds (returning `None`) iff `d`
is `NoneType` or a `Union`/`Optional` containing `NoneType`; `Any` is *not*
accepted (the null check precedes the `Any` pass-through); every failing
descriptor yields `TypeError("expected <descriptor>, got None")` on field
`p`. -/
theorem validate_null_characterization (d : Ty) (p : String) :
    (validateValue JVal.null d p = .ok JVal.null ↔
      d = Ty.noneType ∨ ∃ ms, d = Ty.union ms ∧ Ty.noneType ∈ ms) ∧
    (validateValue JVal.null d p ≠ .ok JVal.null →
      validateValue JVal.null d p =
        .error (typeError ("expected " ++ tyRepr d ++ ", got None") p)) := by
  cases d with
  | noneType => simp [validateValue, JVal.isNull]
  | union ms =>
      by_cases h : ms.any Ty.isNoneType = true
      · have hmem : Ty.noneType ∈ ms := by
          rcases List.any_eq_true.mp h with ⟨t, ht, hts⟩
          exact (Ty.isNoneType_iff t).mp hts ▸ ht
        have hval : validateValue JVal.null (Ty.union ms) p = .ok JVal.null := by
          simp [validateValue, JVal.isNull, h]
        refine ⟨?_, fun hne => absurd hval hne⟩
        rw [hval]
        exact iff_of_true rfl (Or.inr ⟨ms, rfl, hmem⟩)
      · have hmem : Ty.noneType ∉ ms := by
          intro hm
          exact h (List.any_eq_true.mpr ⟨Ty.noneType, hm, rfl⟩)
        have hval : validateValue JVal.null (Ty.union ms) p =
            .error (typeError ("expected " ++ tyRepr (Ty.union ms) ++ ", got None") p) := by
          simp [validateValue, JVal.isNull, h]
        refine ⟨?_, fun _ => hval⟩
        rw [hval]
        constructor
        · intro hh; exact absurd hh (by simp)
        · rintro (h1 | ⟨ms', hms', hmem'⟩)
          · exact absurd h1 (by simp)
          · injection hms' with he
            subst he
            exact absurd hmem' hmem
  | int => exact ⟨by simp [validateValue, JVal.isNull], fun _ => by simp [validateValue, JVal.isNull]⟩
  | float => exact ⟨by simp [validateValue, JVal.isNull], fun _ => by simp [validateValue, JVal.isNull]⟩
  | str => exact ⟨by simp [validateValue, JVal.isNull], fun _ => by simp [validateValue, JVal.isNull]⟩
  | bool => exact ⟨by simp [validateValue, JVal.isNull], fun _ => by simp [validateValue, JVal.isNull]⟩
  | any => exact ⟨by simp [validateValue, JVal.isNull], fun _ => by simp [validateValue, JVal.isNull]⟩
  | list item => exact ⟨by simp [validateValue, JVal.isNull], fun _ => by simp [validateValue, JVal.isNull]⟩
  | dict dargs => exact ⟨by simp [validateValue, JVal.isNull], fun _ => by simp [validateValue, JVal.isNull]⟩

/-- Witness for `validate_null_characterization` at `d = int`. -/
theorem validate_null_characterization_witness :
    validateValue JVal.null Ty.int "x" =
      .error (typeError ("expected " ++ tyRepr Ty.int ++ ", got None") "x") :=
  (validate_null_characterization Ty.int "x").2 (by simp [validateValue, JVal.isNull])

/-! ## C3 — missing-argument resolution -/

/-- C3 counterexample: a parameter declared `Any` and absent from the
request's args is **not** bound to `null` — dispatch rejects it with
`ValidationError("missing required argument 'x'", field="x")`, because the
nullability test is `get_origin is Union and NoneType in get_args`, which
is false for `Any`. -/
theorem missing_any_argument_rejected :
    dispatchFields
      (Registry.register ⟨[]⟩ "f" (fun _ => Except.ok JVal.null) [("x", Ty.any)] Ty.noneType)
      [("function", JVal.str "f")] =
    .error (.grp (validationError
      ("missing required argument " ++ sglQuote ++ "x" ++ sglQuote)
      (Option.some "x"))) := by
  simp [dispatchFields, Registry.register, Registry.get, dictSet, dictGet,
    bindArgs, isNullableHint]

/-- C3 (amended): a declared parameter absent from the args is bound to
`null` iff its hint is a `Union` containing `NoneType` (which is what
`Optional` is); otherwise — `Any` included — dispatch yields
`ValidationError("missing required argument '<name>'")` with `field` set to
that parameter name. -/
theorem missing_argument_resolution (pname : String) (pty : Ty)
    (rest : List (String × Ty)) (args : List (String × JVal))
    (habs : dictGet args pname = Option.none) :
    (isNullableHint pty = true →
      bindArgs ((pname, pty) :: rest) args =
        Except.map (fun vs => (pname, JVal.null) :: vs) (bindArgs rest args)) ∧
    (isNullableHint pty = false →
      bindArgs ((pname, pty) :: rest) args =
        .error (validationError
          ("missing required argument " ++ sglQuote ++ pname ++ sglQuote)
          (Option.some pname))) ∧
    (isNullableHint pty = true ↔ ∃ ms, pty = Ty.union ms ∧ Ty.noneType ∈ ms) := by
  refine ⟨?_, ?_, ?_⟩
  · intro h
    simp only [bindArgs, habs, h, if_true]
    cases bindArgs rest args <;> simp [Except.map]
  · intro h
    simp [bindArgs, habs, h]
  · cases pty <;> simp [isNullableHint, List.any_eq_true, Ty.isNoneType_iff]

/-- Witness for `missing_argument_resolution`: an absent `Optional[str]`
parameter binds to `null`; an absent `int` parameter is rejected. -/
theorem missing_argument_resolution_witness :
    (bindArgs [("x", Ty.union [Ty.str, Ty.noneType])] [] =
      Except.map (fun vs => ("x", JVal.null) :: vs)
        (bindArgs ([] : List (String × Ty)) [])) ∧
    (bindArgs [("y", Ty.int)] [] =
      .error (validationError
        ("missing required argument " ++ sglQuote ++ "y" ++ sglQuote)
        (Option.some "y"))) :=
  ⟨(missing_argument_resolution "x" (Ty.union [Ty.str, Ty.noneType]) [] [] rfl).1
      (by decide),
   (missing_argument_resolution "y" Ty.int [] [] rfl).2.1 (by decide)⟩

/-! ## C6 — return-value validation -/

/-- The skip branch of `_validate_return_value` is extensionally harmless:
for a `NoneType` hint the engine itself passes every value through (null via
the `None` check, anything else via the final pass-through), so
`_validate_return_value` agrees with the engine at path `"return"` on every
input. -/
theorem validateReturnValue_eq_engine (v : JVal) (ty : Ty) :
    validateReturnValue v ty = validateValue v ty "return" := by
  cases ty with
  | noneType => cases v <;> simp [validateReturnValue, validateValue, JVal.isNull]
  | int => rfl
  | float => rfl
  | str => rfl
  | bool => rfl
  | any => rfl
  | list item => rfl
  | dict dargs => rfl
  | union ms => rfl

/-- C6: whenever dispatch reaches a success result, the emitted value is the
output of the validation engine run (at path `"return"`) on the raw value the
function body returned, against the function's declared return descriptor —
the worker never emits a success response that has not passed its own
declared return contract through the same engine. -/
theorem success_return_validated (reg : Registry) (fields : List (String × JVal))
    (v : JVal) (h : dispatchFields reg fields = .ok v) :
    ∃ fname info argFields bound raw,
      dictGet fields "function" = Option.some (JVal.str fname) ∧
      reg.get fname = Option.some info ∧
      (dictGet fields "args").getD (JVal.obj []) = JVal.obj argFields ∧
      bindArgs info.type_hints argFields = .ok bound ∧
      info.func bound = .ok raw ∧
      validateValue raw info.return_type "return" = .ok v := by
  unfold dispatchFields at h
  split at h
  · simp at h
  · next fv heqf =>
      split at h
      · next fname =>
          split at h
          · simp at h
          · next info heqg =>
              split at h
              · next argFields heqa =>
                  split at h
                  · next e heqb => simp at h
                  · next bound heqb =>
                      dsimp only [] at h
                      split at h
                      · next hu =>
                          split at h
                          · next e heqc => simp at h
                          · next raw heqc =>
                              split at h
                              · next e heqv => simp at h
                              · next final heqv =>
                                  injection h with h
                                  subst h
                                  exact ⟨fname, info, argFields, bound, raw,
                                    heqf, heqg, heqa, heqb, heqc,
                                    (validateReturnValue_eq_engine raw info.return_type) ▸ heqv⟩
                      · simp at h
              · next heqa => simp at h
      · next heqs => simp at h

/-- Witness for `success_return_validated`: a parameterless function
returning `7` under return hint `int`. -/
theorem success_return_validated_witness :
    ∃ fname info argFields bound raw,
      dictGet [("function", JVal.str "c6")] "function" = Option.some (JVal.str fname) ∧
      (Registry.register ⟨[]⟩ "c6" (fun _ => Except.ok (JVal.int 7)) [] Ty.int).get fname =
        Option.some info ∧
      (dictGet [("function", JVal.str "c6")] "args").getD (JVal.obj []) = JVal.obj argFields ∧
      bindArgs info.type_hints argFields = .ok bound ∧
      info.func bound = .ok raw ∧
      validateValue raw info.return_type "return" = .ok (JVal.int 7) :=
  success_return_validated
    (Registry.register ⟨[]⟩ "c6" (fun _ => Except.ok (JVal.int 7)) [] Ty.int)
    [("function", JVal.str "c6")] (JVal.int 7)
    (by simp [dispatchFields, Registry.register, Registry.get, dictGet, dictSet,
      bindArgs, validateReturnValue, validateValue, JVal.isNull])

/-! ## C10 — request without an `args` key -/

/-- C10 counterexample: with a single declared parameter of hint `Any`, a
request with no `args` key — equivalently, with `args: {}` — does **not**
succeed even though `Any` is nullable in the claim's sense: both forms yield
`ValidationError("missing required argument 'x'")`. -/
theorem no_args_any_param_rejected :
    (dispatchFields
      (Registry.register ⟨[]⟩ "g" (fun _ => Except.ok JVal.null) [("x", Ty.any)] Ty.noneType)
      [("function", JVal.str "g")] =
      .error (.grp (validationError
        ("missing required argument " ++ sglQuote ++ "x" ++ sglQuote)
        (Option.some "x")))) ∧
    (dispatchFields
      (Registry.register ⟨[]⟩ "g" (fun _ => Except.ok JVal.null) [("x", Ty.any)] Ty.noneType)
      [("function", JVal.str "g"), ("args", JVal.obj [])] =
      .error (.grp (validationError
        ("missing required argument " ++ sglQuote ++ "x" ++ sglQuote)
        (Option.some "x")))) := by
  constructor <;>
    simp [dispatchFields, Registry.register, Registry.get, dictSet, dictGet,
      bindArgs, isNullableHint]

/-- C10 (amended): a request object with no `args` key is dispatched
identically to the same request carrying `args: {}`; argument binding
against the empty mapping succeeds exactly when every declared parameter's
hint is a `Union` containing `NoneType` (so a parameterless function
trivially binds; a parameter hinted `Any` is *not* nullable). -/
theorem no_args_key_like_empty_args :
    (∀ (reg : Registry) (fields : List (String × JVal)),
      dictGet fields "args" = Option.none →
      dispatchFields reg fields =
        dispatchFields reg (fields ++ [("args", JVal.obj [])])) ∧
    (∀ hints : List (String × Ty),
      (∃ bound, bindArgs hints ([] : List (String × JVal)) = .ok bound) ↔
        ∀ p ∈ hints, isNullableHint p.2 = true) := by
  constructor
  · intro reg fields habs
    unfold dispatchFields
    rw [dictGet_append_other fields "args" "function" (JVal.obj []) (by decide),
        dictGet_append_self fields "args" (JVal.obj []) habs, habs]
    rfl
  · intro hints
    induction hints with
    | nil => simp [bindArgs]
    | cons p rest ih =>
        obtain ⟨pname, pty⟩ := p
        cases hn : isNullableHint pty with
        | true =>
            constructor
            · rintro ⟨bound, hbnd⟩
              intro q hq
              rcases List.mem_cons.mp hq with hq | hq
              · subst hq; exact hn
              · refine (ih.mp ?_) q hq
                simp only [bindArgs, dictGet, hn, if_true] at hbnd
                cases hb : bindArgs rest ([] : List (String × JVal)) with
                | error e => rw [hb] at hbnd; simp at hbnd
                | ok vs => exact ⟨vs, rfl⟩
            · intro hall
              rcases ih.mpr (fun q hq => hall q (List.mem_cons_of_mem _ hq)) with ⟨vs, hvs⟩
              exact ⟨(pname, JVal.null) :: vs, by simp [bindArgs, dictGet, hn, hvs]⟩
        | false =>
            constructor
            · rintro ⟨bound, hbnd⟩
              simp [bindArgs, dictGet, hn] at hbnd
            · intro hall
              have hhd := hall (pname, pty) (List.mem_cons_self _ _)
              rw [hn] at hhd
              simp at hhd

/-- Witness for `no_args_key_like_empty_args`: a request with no `args` key
against the empty registry, and binding of a single `Optional[int]`
parameter against the empty mapping. -/
theorem no_args_key_like_empty_args_witness :
    (dispatchFields ⟨[]⟩ [("function", JVal.str "h")] =
      dispatchFields ⟨[]⟩ ([("function", JVal.str "h")] ++ [("args", JVal.obj [])])) ∧
    (∃ bound, bindArgs [("x", Ty.union [Ty.int, Ty.noneType])]
        ([] : List (String × JVal)) = .ok bound) :=
  ⟨no_args_key_like_empty_args.1 ⟨[]⟩ [("function", JVal.str "h")] rfl,
   (no_args_key_like_empty_args.2 [("x", Ty.union [Ty.int, Ty.noneType])]).mpr
     (by
       intro p hp
       rw [List.mem_singleton] at hp
       subst hp
       decide)⟩

/-! ## C8 — union first-match semantics -/

/-- Did a validation step succeed? -/
def isOkResult {ε α : Type} : Except ε α → Bool
  | .ok _ => true
  | .error _ => false

theorem validateValue_union_nonNull (v : JVal) (ms : List Ty) (p : String)
    (hv : v.isNull = false) :
    validateValue v (Ty.union ms) p = validateUnion v ms ms p := by
  simp [validateValue, hv]

theorem validateUnion_cons_skip (v : JVal) (m : Ty) (rest allMs : List Ty)
    (p : String) (hm : m.isNoneType = true) :
    validateUnion v (m :: rest) allMs p = validateUnion v rest allMs p := by
  simp [validateUnion, hm]

theorem validateUnion_cons_err (v : JVal) (m : Ty) (rest allMs : List Ty)
    (p : String) (e : GRPError) (hm : m.isNoneType = false)
    (he : validateValue v m p = .error e) :
    validateUnion v (m :: rest) allMs p = validateUnion v rest allMs p := by
  simp [validateUnion, hm, he]

theorem validateUnion_cons_ok (v : JVal) (m : Ty) (rest allMs : List Ty)
    (p : String) (w : JVal) (hm : m.isNoneType = false)
    (hok : validateValue v m p = .ok w) :
    validateUnion v (m :: rest) allMs p = .ok w := by
  simp [validateUnion, hm, hok]

theorem validateUnion_isOk_iff (v : JVal) (p : String) :
    ∀ (ms allMs : List Ty),
      isOkResult (validateUnion v ms allMs p) = true ↔
        ∃ m ∈ ms, m.isNoneType = false ∧ isOkResult (validateValue v m p) = true := by
  intro ms
  induction ms with
  | nil => intro allMs; simp [validateUnion, isOkResult]
  | cons m rest ih =>
      intro allMs
      cases hm : m.isNoneType with
      | true =>
          rw [validateUnion_cons_skip v m rest allMs p hm]
          simp only [List.mem_cons, ih]
          constructor
          · rintro ⟨q, hq, hqs⟩; exact ⟨q, Or.inr hq, hqs⟩
          · rintro ⟨q, hq | hq, hqs⟩
            · subst hq; rw [hm] at hqs; simp at hqs
            · exact ⟨q, hq, hqs⟩
      | false =>
          cases hval : validateValue v m p with
          | ok w =>
              rw [validateUnion_cons_ok v m rest allMs p w hm hval]
              simp only [isOkResult, true_iff]
              exact ⟨m, List.mem_cons_self _ _, hm, by simp [hval, isOkResult]⟩
          | error e =>
              rw [validateUnion_cons_err v m rest allMs p e hm hval]
              simp only [List.mem_cons, ih]
              constructor
              · rintro ⟨q, hq, hqs⟩; exact ⟨q, Or.inr hq, hqs⟩
              · rintro ⟨q, hq | hq, hqs⟩
                · subst hq; rw [hval] at hqs; simp [isOkResult] at hqs
                · exact ⟨q, hq, hqs⟩

theorem validateUnion_first_success (v : JVal) (p : String) :
    ∀ (pre : List Ty) (m : Ty) (post allMs : List Ty) (w : JVal),
      (∀ m' ∈ pre, m'.isNoneType = true ∨ ∃ e, validateValue v m' p = .error e) →
      m.isNoneType = false → validateValue v m p = .ok w →
      validateUnion v (pre ++ m :: post) allMs p = .ok w := by
  intro pre
  induction pre with
  | nil =>
      intro m post allMs w _ hm hval
      exact validateUnion_cons_ok v m post allMs p w hm hval
  | cons m' pres ih =>
      intro m post allMs w hpre hm hval
      have hstep := hpre m' (List.mem_cons_self _ _)
      have htail : ∀ q ∈ pres, q.isNoneType = true ∨ ∃ e, validateValue v q p = .error e :=
        fun q hq => hpre q (List.mem_cons_of_mem _ hq)
      rw [List.cons_append]
      rcases hstep with hnone | ⟨e, herr⟩
      · rw [validateUnion_cons_skip v m' (pres ++ m :: post) allMs p hnone]
        exact ih m post allMs w htail hm hval
      · cases hm' : m'.isNoneType with
        | true =>
            rw [validateUnion_cons_skip v m' (pres ++ m :: post) allMs p hm']
            exact ih m post allMs w htail hm hval
        | false =>
            rw [validateUnion_cons_err v m' (pres ++ m :: post) allMs p e hm' herr]
            exact ih m post allMs w htail hm hval

theorem validateUnion_all_fail (v : JVal) (p : String) :
    ∀ (ms allMs : List Ty),
      (∀ m ∈ ms, m.isNoneType = true ∨ ∃ e, validateValue v m p = .error e) →
      validateUnion v ms allMs p =
        .error (typeError ("expected one of " ++ pyListRepr (tyReprNonNoneList allMs) ++
          ", got " ++ jvalTypeName v) p) := by
  intro ms
  induction ms with
  | nil => intro allMs _; simp [validateUnion]
  | cons m rest ih =>
      intro allMs hall
      have htail : ∀ q ∈ rest, q.isNoneType = true ∨ ∃ e, validateValue v q p = .error e :=
        fun q hq => hall q (List.mem_cons_of_mem _ hq)
      rcases hall m (List.mem_cons_self _ _) with hnone | ⟨e, herr⟩
      · rw [validateUnion_cons_skip v m rest allMs p hnone]
        exact ih allMs htail
      · cases hm : m.isNoneType with
        | true =>
            rw [validateUnion_cons_skip v m rest allMs p hm]
            exact ih allMs htail
        | false =>
            rw [validateUnion_cons_err v m rest allMs p e hm herr]
            exact ih allMs htail

/-- C8: for a non-null value, union validation tries the non-`None` members
in declared order and returns the result of the first member that validates
(first conjunct); if no member validates, it fails with a `TypeError` whose
message aggregates the declared member reprs (second conjunct); and
permuting the member list never changes whether validation succeeds or
fails (third conjunct — only the error-message content is order-dependent). -/
theorem union_first_match_semantics :
    (∀ (v : JVal) (p : String) (pre : List Ty) (m : Ty) (post : List Ty) (w : JVal),
      v.isNull = false →
      (∀ m' ∈ pre, m'.isNoneType = true ∨ ∃ e, validateValue v m' p = .error e) →
      m.isNoneType = false → validateValue v m p = .ok w →
      validateValue v (Ty.union (pre ++ m :: post)) p = .ok w) ∧
    (∀ (v : JVal) (p : String) (ms : List Ty),
      v.isNull = false →
      (∀ m ∈ ms, m.isNoneType = true ∨ ∃ e, validateValue v m p = .error e) →
      validateValue v (Ty.union ms) p =
        .error (typeError ("expected one of " ++ pyListRepr (tyReprNonNoneList ms) ++
          ", got " ++ jvalTypeName v) p)) ∧
    (∀ (v : JVal) (p : String) (ms ms' : List Ty),
      v.isNull = false → ms.Perm ms' →
      isOkResult (validateValue v (Ty.union ms) p) =
        isOkResult (validateValue v (Ty.union ms') p)) := by
  refine ⟨?_, ?_, ?_⟩
  · intro v p pre m post w hv hpre hm hval
    rw [validateValue_union_nonNull v (pre ++ m :: post) p hv]
    exact validateUnion_first_success v p pre m post (pre ++ m :: post) w hpre hm hval
  · intro v p ms hv hall
    rw [validateValue_union_nonNull v ms p hv]
    exact validateUnion_all_fail v p ms ms hall
  · intro v p ms ms' hv hperm
    rw [validateValue_union_nonNull v ms p hv, validateValue_union_nonNull v ms' p hv]
    have h1 := validateUnion_isOk_iff v p ms ms
    have h2 := validateUnion_isOk_iff v p ms' ms'
    cases hA : isOkResult (validateUnion v ms ms p) with
    | true =>
        rcases h1.mp hA with ⟨m, hm, hms⟩
        exact (h2.mpr ⟨m, hperm.mem_iff.mp hm, hms⟩).symm
    | false =>
        cases hB : isOkResult (validateUnion v ms' ms' p) with
        | true =>
            rcases h2.mp hB with ⟨m, hm, hms⟩
            rw [← h1.mpr ⟨m, hperm.mem_iff.mpr hm, hms⟩, hA]
        | false => rfl

/-- Witness for `union_first_match_semantics`: `3` against `Union[str, int]`
matches the second member; `true` against `Union[str]` fails with the
aggregate message; `[int, str]` and its swap agree on success. -/
theorem union_first_match_semantics_witness :
    (validateValue (JVal.int 3) (Ty.union [Ty.str, Ty.int]) "q" = .ok (JVal.int 3)) ∧
    (validateValue (JVal.bool true) (Ty.union [Ty.str]) "q" =
      .error (typeError ("expected one of " ++ pyListRepr (tyReprNonNoneList [Ty.str]) ++
        ", got " ++ jvalTypeName (JVal.bool true)) "q")) ∧
    (isOkResult (validateValue (JVal.int 3) (Ty.union [Ty.int, Ty.str]) "q") =
      isOkResult (validateValue (JVal.int 3) (Ty.union [Ty.str, Ty.int]) "q")) :=
  ⟨union_first_match_semantics.1 (JVal.int 3) "q" [Ty.str] Ty.int [] (JVal.int 3)
      rfl
      (by
        intro m' hm'
        rw [List.mem_singleton] at hm'
        subst hm'
        exact Or.inr ⟨typeError ("expected str, got " ++ jvalTypeName (JVal.int 3)) "q",
          by simp [validateValue, JVal.isNull]⟩)
      rfl
      (by simp [validateValue, JVal.isNull]),
   union_first_match_semantics.2.1 (JVal.bool true) "q" [Ty.str]
      rfl
      (by
        intro m hm
        rw [List.mem_singleton] at hm
        subst hm
        exact Or.inr ⟨typeError ("expected str, got " ++ jvalTypeName (JVal.bool true)) "q",
          by simp [validateValue, JVal.isNull]⟩),
   union_first_match_semantics.2.2 (JVal.int 3) "q" [Ty.int, Ty.str] [Ty.str, Ty.int]
      rfl (List.Perm.swap _ _ _)⟩

/-! ## C9 — wire-string round-trip -/

theorem toList_append (a b : String) : (a ++ b).toList = a.toList ++ b.toList := by
  rcases a with ⟨la⟩
  rcases b with ⟨lb⟩
  rfl

theorem parseWire_list_prefix (rest0 : List Char) :
    parseWire ('L' :: 'i' :: 's' :: 't' :: '[' :: rest0) =
      match parseWire rest0 with
      | Option.some (t, ']' :: rest') => Option.some (Ty.list (Option.some t), rest')
      | _ => Option.none := rfl

theorem parseWire_dict_prefix (rest0 : List Char) :
    parseWire ('D' :: 'i' :: 'c' :: 't' :: '[' :: 's' :: 't' :: 'r' :: ',' :: ' ' :: rest0) =
      match parseWire rest0 with
      | Option.some (t, ']' :: rest') =>
          Option.some (Ty.dict (Option.some (Ty.str, t)), rest')
      | _ => Option.none := rfl

theorem parseWire_optional_prefix (rest0 : List Char) :
    parseWire ('O' :: 'p' :: 't' :: 'i' :: 'o' :: 'n' :: 'a' :: 'l' :: '[' :: rest0) =
      match parseWire rest0 with
      | Option.some (t, ']' :: rest') =>
          Option.some (Ty.union [t, Ty.noneType], rest')
      | _ => Option.none := rfl

theorem isNoneType_eq_false_of_ne (t : Ty) (h : t ≠ Ty.noneType) :
    t.isNoneType = false := by
  cases hb : t.isNoneType with
  | true => exact absurd ((Ty.isNoneType_iff t).mp hb) h
  | false => rfl

/-- The heart of the round-trip: the spec-modelled parser consumes exactly
the printed form of a grammatical descriptor from the front of any
character stream and returns the descriptor. -/
theorem parseWire_typeToString (d : Ty) (h : InGrammar d) :
    ∀ rest : List Char,
      parseWire ((typeToString d).toList ++ rest) = Option.some (d, rest) := by
  induction h with
  | int => intro rest; rfl
  | float => intro rest; rfl
  | str => intro rest; rfl
  | bool => intro rest; rfl
  | noneType => intro rest; rfl
  | any => intro rest; rfl
  | list ht ih =>
      intro rest
      next t =>
      rw [show typeToString (Ty.list (Option.some t)) = "List[" ++ typeToString t ++ "]"
          from by simp [typeToString]]
      rw [toList_append, toList_append, List.append_assoc, List.append_assoc]
      have hchars :
          ("List[".toList ++ ((typeToString t).toList ++ ("]".toList ++ rest))) =
            'L' :: 'i' :: 's' :: 't' :: '[' :: ((typeToString t).toList ++ (']' :: rest)) := rfl
      rw [hchars, parseWire_list_prefix, ih (']' :: rest)]
      rfl
  | dict ht ih =>
      intro rest
      next t =>
      rw [show typeToString (Ty.dict (Option.some (Ty.str, t))) =
          "Dict[" ++ "str" ++ ", " ++ typeToString t ++ "]"
          from by simp [typeToString]]
      rw [toList_append, toList_append, toList_append, toList_append,
        List.append_assoc, List.append_assoc, List.append_assoc, List.append_assoc]
      have hchars :
          ("Dict[".toList ++ ("str".toList ++ (", ".toList ++
              ((typeToString t).toList ++ ("]".toList ++ rest))))) =
            'D' :: 'i' :: 'c' :: 't' :: '[' :: 's' :: 't' :: 'r' :: ',' :: ' ' ::
              ((typeToString t).toList ++ (']' :: rest)) := rfl
      rw [hchars, parseWire_dict_prefix, ih (']' :: rest)]
      rfl
  | opt ht hne ih =>
      intro rest
      next t =>
      have hfalse : t.isNoneType = false := isNoneType_eq_false_of_ne t hne
      rw [show typeToString (Ty.union [t, Ty.noneType]) =
          "Optional[" ++ typeToString t ++ "]"
          from by simp [typeToString, nonNoneStrings, hfalse, Ty.isNoneType]]
      rw [toList_append, toList_append, List.append_assoc, List.append_assoc]
      have hchars :
          ("Optional[".toList ++ ((typeToString t).toList ++ ("]".toList ++ rest))) =
            'O' :: 'p' :: 't' :: 'i' :: 'o' :: 'n' :: 'a' :: 'l' :: '[' ::
              ((typeToString t).toList ++ (']' :: rest)) := rfl
      rw [hchars, parseWire_optional_prefix, ih (']' :: rest)]
      rfl

/-- C9: for every descriptor expressible in the wire grammar, parsing the
printed wire string gives back exactly the descriptor:
`parseWireString (toWireString d) = d`. -/
theorem wire_roundtrip (d : Ty) (h : InGrammar d) :
    parseWireString (typeToString d) = Option.some d := by
  have hp := parseWire_typeToString d h []
  rw [List.append_nil] at hp
  have hp2 : parseWire (typeToString d).data = Option.some (d, []) := hp
  simp [parseWireString, hp, hp2]

/-- Witness for `wire_roundtrip` at `Dict[str, Optional[List[int]]]`. -/
theorem wire_roundtrip_witness :
    parseWireString (typeToString (Ty.dict (Option.some (Ty.str,
        Ty.union [Ty.list (Option.some Ty.int), Ty.noneType])))) =
      Option.some (Ty.dict (Option.some (Ty.str,
        Ty.union [Ty.list (Option.some Ty.int), Ty.noneType]))) :=
  wire_roundtrip _
    (InGrammar.dict (InGrammar.opt (InGrammar.list InGrammar.int) (by simp)))

/-! ## C5 — the introspection exporter -/

theorem dictGet_of_nodup {α : Type} :
    ∀ (l : List (String × α)), (l.map Prod.fst).Nodup →
      ∀ p ∈ l, dictGet l p.1 = Option.some p.2 := by
  intro l
  induction l with
  | nil => intro _ p hp; simp at hp
  | cons q rest ih =>
      intro hnd p hp
      obtain ⟨k0, v0⟩ := q
      rw [List.map_cons, List.nodup_cons] at hnd
      rcases List.mem_cons.mp hp with hp | hp
      · subst hp; simp [dictGet]
      · have hne : k0 ≠ p.1 := by
          intro hk
          exact hnd.1 (hk ▸ List.mem_map.mpr ⟨p, hp, rfl⟩)
        simp only [dictGet, if_neg hne]
        exact ih hnd.2 p hp

theorem introspectList_entries (reg : Registry) :
    ∀ (l : List (String × FunctionInfo)),
      (∀ p ∈ l, reg.get p.1 = Option.some p.2) →
      introspectList reg (l.map Prod.fst) = l.map (fun p => introspectEntry p.2) := by
  intro l
  induction l with
  | nil => intro _; rfl
  | cons p rest ih =>
      intro hall
      rw [List.map_cons, introspectList, hall p (List.mem_cons_self _ _)]
      rw [List.map_cons, ih (fun q hq => hall q (List.mem_cons_of_mem _ hq))]

theorem nodup_keys_dictSet {α : Type} (l : List (String × α)) (k : String) (v : α)
    (h : (l.map Prod.fst).Nodup) : ((dictSet l k v).map Prod.fst).Nodup := by
  rw [keys_dictSet]
  by_cases hc : ((l.map Prod.fst).contains k = true)
  · rw [if_pos hc]; exact h
  · rw [if_neg hc]
    refine List.Nodup.append h (List.nodup_singleton k) ?_
    intro a ha hb
    rw [List.mem_singleton] at hb
    subst hb
    exact hc (by simpa using ha)

theorem introspectList_congr (regA regB : Registry) :
    ∀ names : List String,
      (∀ n ∈ names,
        (regA.get n).map introspectEntry = (regB.get n).map introspectEntry) →
      introspectList regA names = introspectList regB names := by
  intro names
  induction names with
  | nil => intro _; rfl
  | cons n rest ih =>
      intro hall
      have hn := hall n (List.mem_cons_self _ _)
      have htail := fun q hq => hall q (List.mem_cons_of_mem _ hq)
      cases hA : regA.get n with
      | none =>
          cases hB : regB.get n with
          | none => simp only [introspectList, hA, hB]; exact ih htail
          | some i2 => rw [hA, hB] at hn; simp at hn
      | some i1 =>
          cases hB : regB.get n with
          | none => rw [hA, hB] at hn; simp at hn
          | some i2 =>
              rw [hA, hB] at hn
              simp only [Option.map] at hn
              rw [Option.some.injEq] at hn
              simp only [introspectList, hA, hB, hn]
              rw [ih htail]

/-- C5 counterexample: seeding an otherwise empty registry and calling the
introspection function yields a `functions` array that contains the entry
for `__introspect__` itself — not the empty array that "every *other*
registered signature" would give. -/
theorem introspect_lists_itself :
    (introspectJson (seedRegistry ⟨[]⟩) =
      JVal.obj [("functions", JVal.arr
        [JVal.obj [("name", JVal.str "__introspect__"),
                   ("parameters", JVal.obj []),
                   ("return_type", JVal.str "Dict[str, Any]")]])]) ∧
    (introspectJson (seedRegistry ⟨[]⟩) ≠
      JVal.obj [("functions", JVal.arr [])]) := by
  have h1 : introspectJson (seedRegistry ⟨[]⟩) =
      JVal.obj [("functions", JVal.arr
        [JVal.obj [("name", JVal.str "__introspect__"),
                   ("parameters", JVal.obj []),
                   ("return_type", JVal.str "Dict[str, Any]")]])] := by
    simp [introspectJson, seedRegistry, introspectSnapshot, Registry.register,
      Registry.get, Registry.list_functions, dictGet, dictSet, introspectList,
      introspectEntry, introspectReturnTy, typeToString]
  refine ⟨h1, ?_⟩
  rw [h1]
  intro hcontra
  injection hcontra with hfields
  injection hfields with hpair
  injection hpair with hfst hsnd
  injection hsnd with hlist
  exact List.noConfusion hlist

/-- C5 (amended): after seeding, the reserved name `__introspect__` is
registered with no parameters and return hint `Dict[str, Any]`; invoking it
returns the introspection JSON of the seeded registry; and that JSON
serializes **every** registered signature — the introspection function
itself included — as `{name, parameters: {param → wire string}, return_type:
wire string}` objects, one per registry entry. -/
theorem introspect_reserved_and_serializes_all (reg : Registry)
    (hnd : (reg.functions.map Prod.fst).Nodup) :
    ∃ info,
      (seedRegistry reg).get "__introspect__" = Option.some info ∧
      info.type_hints = [] ∧
      info.return_type = introspectReturnTy ∧
      info.func [] = .ok (introspectJson (seedRegistry reg)) ∧
      introspectJson (seedRegistry reg) =
        JVal.obj [("functions", JVal.arr
          ((seedRegistry reg).functions.map (fun p => introspectEntry p.2)))] := by
  have hget : (seedRegistry reg).get "__introspect__" =
      Option.some ⟨"__introspect__",
        (fun _ => .ok (introspectJson (introspectSnapshot reg))), [],
        introspectReturnTy⟩ := by
    simp only [seedRegistry, Registry.register, Registry.get]
    exact dictGet_dictSet_self _ _ _
  have hkeys : (introspectSnapshot reg).list_functions =
      (seedRegistry reg).list_functions := by
    simp only [introspectSnapshot, seedRegistry, Registry.register,
      Registry.list_functions]
    rw [keys_dictSet, keys_dictSet]
  have hcongr : introspectJson (introspectSnapshot reg) =
      introspectJson (seedRegistry reg) := by
    unfold introspectJson
    rw [hkeys]
    rw [introspectList_congr (introspectSnapshot reg) (seedRegistry reg) _ ?_]
    intro n _
    by_cases hn : n = "__introspect__"
    · subst hn
      have hA : (introspectSnapshot reg).get "__introspect__" =
          Option.some ⟨"__introspect__", fun _ => .error (.exc "placeholder"), [],
            introspectReturnTy⟩ := by
        simp only [introspectSnapshot, Registry.get]
        exact dictGet_dictSet_self _ _ _
      rw [hA, hget]
      rfl
    · have hA : (introspectSnapshot reg).get n = dictGet reg.functions n := by
        simp only [introspectSnapshot, Registry.get]
        exact dictGet_dictSet_ne _ _ _ _ hn
      have hB : (seedRegistry reg).get n = dictGet reg.functions n := by
        simp only [seedRegistry, Registry.register, Registry.get]
        exact dictGet_dictSet_ne _ _ _ _ hn
      rw [hA, hB]
  refine ⟨_, hget, rfl, rfl, ?_, ?_⟩
  · show Except.ok (introspectJson (introspectSnapshot reg)) =
      Except.ok (introspectJson (seedRegistry reg))
    rw [hcongr]
  · have hnd' : ((seedRegistry reg).functions.map Prod.fst).Nodup := by
      simp only [seedRegistry, Registry.register]
      exact nodup_keys_dictSet _ _ _ hnd
    have hall : ∀ p ∈ (seedRegistry reg).functions,
        (seedRegistry reg).get p.1 = Option.some p.2 :=
      fun p hp => dictGet_of_nodup _ hnd' p hp
    unfold introspectJson
    rw [show (seedRegistry reg).list_functions =
        (seedRegistry reg).functions.map Prod.fst from rfl]
    rw [introspectList_entries _ _ hall]

/-- Witness for `introspect_reserved_and_serializes_all` on a registry with
one exported function. -/
theorem introspect_reserved_witness :
    ∃ info,
      (seedRegistry (Registry.register ⟨[]⟩ "sum"
          (fun _ => Except.ok (JVal.int 3)) [("a", Ty.int)] Ty.int)).get
        "__introspect__" = Option.some info ∧
      info.type_hints = [] ∧
      info.return_type = introspectReturnTy ∧
      info.func [] = .ok (introspectJson (seedRegistry (Registry.register ⟨[]⟩ "sum"
          (fun _ => Except.ok (JVal.int 3)) [("a", Ty.int)] Ty.int))) ∧
      introspectJson (seedRegistry (Registry.register ⟨[]⟩ "sum"
          (fun _ => Except.ok (JVal.int 3)) [("a", Ty.int)] Ty.int)) =
        JVal.obj [("functions", JVal.arr
          (((seedRegistry (Registry.register ⟨[]⟩ "sum"
              (fun _ => Except.ok (JVal.int 3)) [("a", Ty.int)] Ty.int)).functions).map
            (fun p => introspectEntry p.2)))] :=
  introspect_reserved_and_serializes_all
    (Registry.register ⟨[]⟩ "sum" (fun _ => Except.ok (JVal.int 3)) [("a", Ty.int)] Ty.int)
    (by decide)

/-! ## C1 — terminal mapping of `main()` -/

/-- C1: one run of `main()` emits exactly one response (`MainOut` carries a
single response by construction): a pipeline success is written to stdout
with exit code 0; a caught `GoRunPyError` (the handled kinds
`ValidationError`/`TypeError`/`FunctionNotFoundError` all reach this
handler) is written to stderr with exit code 1; any other exception is
wrapped as a `RuntimeError`-kind response on stderr with exit code 2. -/
theorem main_terminal_mapping (reg : Registry) (input : StdinInput) :
    (∀ v, pipelineResult reg input = .ok v →
      runMain reg input = ⟨Channel.stdout, makeSuccessResponse v, 0⟩) ∧
    (∀ e, pipelineResult reg input = .error (.grp e) →
      runMain reg input = ⟨Channel.stderr, makeErrorResponse e, 1⟩) ∧
    (∀ s, pipelineResult reg input = .error (.exc s) →
      runMain reg input = ⟨Channel.stderr,
        makeErrorResponse ⟨"RuntimeError", s, Option.none⟩, 2⟩) := by
  refine ⟨?_, ?_, ?_⟩ <;> intro x h <;> simp [runMain, h, ExitCode.value]

/-- Witness for `main_terminal_mapping`: a successful introspection call, a
blank stdin, and a crashing non-object request, on the empty registry. -/
theorem main_terminal_mapping_witness :
    (runMain ⟨[]⟩ (StdinInput.parsed (JVal.obj [("function", JVal.str "__introspect__")])) =
      ⟨Channel.stdout, makeSuccessResponse (JVal.obj [("functions", JVal.arr
        [JVal.obj [("name", JVal.str "__introspect__"),
                   ("parameters", JVal.obj []),
                   ("return_type", JVal.str "Dict[str, Any]")]])]), 0⟩) ∧
    (runMain ⟨[]⟩ StdinInput.emptyInput =
      ⟨Channel.stderr, makeErrorResponse (validationError "empty input" Option.none), 1⟩) ∧
    (runMain ⟨[]⟩ (StdinInput.parsed JVal.null) =
      ⟨Channel.stderr, makeErrorResponse ⟨"RuntimeError",
        "TypeError: argument of type is not iterable", Option.none⟩, 2⟩) :=
  ⟨(main_terminal_mapping ⟨[]⟩ _).1 _
      (by simp [pipelineResult, seedRegistry, introspectSnapshot, dispatchVal,
        dispatchFields, Registry.register, Registry.get, dictGet, dictSet,
        bindArgs, validateReturnValue, validateValue, validateDictItems,
        introspectJson, introspectList, introspectEntry, Registry.list_functions,
        introspectReturnTy, typeToString, JVal.isNull, Except.map, List.isEmpty]),
   (main_terminal_mapping ⟨[]⟩ _).2.1 _ (by simp [pipelineResult]),
   (main_terminal_mapping ⟨[]⟩ _).2.2 _ (by simp [pipelineResult, dispatchVal])⟩
